import Mathlib

/-!
# Verification of the nepal-ipo-bot core logic

This file contains a shallow embedding, in Lean 4, of the core logic of the
`nepal-ipo-bot` repository (files `src/api.py`, `src/parser.py`, `src/main.py`),
together with theorems settling the frozen claims about that logic.

Modelling conventions:
* Python dictionaries / JSON values are modelled by the inductive type `JVal`
  (objects as association lists; Python dict keys are unique, lookups take the
  first binding).
* Network calls are modelled as oracle values / oracle functions supplied in an
  environment record; a Python exception escaping a call is an `Except.error`.
* Python strings are Lean `String`s.  The Python string operations used by the
  code (`lower`, `strip`, `split`, `in`, `upper`) are re-implemented below for
  the ASCII fragment actually exercised by the program (`\s` and `\d` in the
  regular expressions are likewise modelled by their ASCII meaning).
* `difflib.SequenceMatcher(None, a, b).ratio()` is Python standard library
  code, not repository code.  It is modelled as an abstract similarity
  function `ratio : String → String → ℚ`; the spec's only assumption about it
  (scores lie in `[0,1]`, i.e. are nonnegative) is taken as a hypothesis where
  it is needed.  All control flow of the repository's own code is embedded
  faithfully.
-/

namespace IpoBot

/-! ## Python string primitives -/

/-- Python `\s` (ASCII fragment): the whitespace characters recognised by
`str.strip`, `str.split` and the regex class `\s`. -/
def pyIsSpace (c : Char) : Bool :=
  c = ' ' || c = '\t' || c = '\n' || c = '\x0d' || c = '\x0c' || c = '\x0b'

/-- ASCII lower-casing of a character (Python `str.lower` on the ASCII
fragment). -/
def pyLowerChar (c : Char) : Char := c.toLower

/-- Python `str.lower()` (ASCII fragment). -/
def pyLower (s : String) : String := String.mk (s.toList.map pyLowerChar)

/-- Python `str.upper()` (ASCII fragment). -/
def pyUpper (s : String) : String := String.mk (s.toList.map Char.toUpper)

/-- Strip `pyIsSpace` characters from both ends of a character list. -/
def pyStripChars (l : List Char) : List Char :=
  ((l.dropWhile pyIsSpace).reverse.dropWhile pyIsSpace).reverse

/-- Python `str.strip()` (no argument form). -/
def pyStrip (s : String) : String := String.mk (pyStripChars s.toList)

/-- `isPrefixList a b` is true when `a` is a prefix of `b`. -/
def isPrefixList : List Char → List Char → Bool
  | [], _ => true
  | _ :: _, [] => false
  | a :: as, b :: bs => a = b && isPrefixList as bs

/-- `subIn needle hay` is Python's `needle in hay` on character lists:
`needle` occurs contiguously inside `hay` (the empty list occurs in
everything). -/
def subIn (needle : List Char) : List Char → Bool
  | [] => needle.isEmpty
  | c :: t => isPrefixList needle (c :: t) || subIn needle t

/-- Python's substring test `needle in hay` on strings. -/
def strIn (needle hay : String) : Bool := subIn needle.toList hay.toList

/-- Python `str.split()` (split on runs of whitespace, discarding empties),
on a character list, accumulating the current word in reverse. -/
def pySplitAux : List Char → List Char → List String
  | [], [] => []
  | [], w => [String.mk w.reverse]
  | c :: t, w =>
    if pyIsSpace c then
      match w with
      | [] => pySplitAux t []
      | _ => String.mk w.reverse :: pySplitAux t []
    else pySplitAux t (c :: w)

/-- Python `str.split()` (no argument form). -/
def pySplit (s : String) : List String := pySplitAux s.toList []

/-- Python `' '.join(words)`. -/
def joinSpace : List String → String
  | [] => ""
  | [w] => w
  | w :: t => w ++ " " ++ joinSpace t

/-! ## JSON values

Python dictionaries and JSON payloads are modelled as `JVal`. -/

/-- A JSON value / Python object as handled by the bot's response parsing. -/
inductive JVal where
  | null : JVal
  | bool : Bool → JVal
  | num : Int → JVal
  | str : String → JVal
  | arr : List JVal → JVal
  | obj : List (String × JVal) → JVal

/-- Python `v == "lit"` for a JSON value and a string literal: true exactly
when `v` is that string. -/
def jStrEq (v : JVal) (s : String) : Bool :=
  match v with
  | .str t => t = s
  | _ => false

/-- Dictionary lookup (`d[k]` / `d.get(k)`): first binding for the key. -/
def lookupField : List (String × JVal) → String → Option JVal
  | [], _ => none
  | (k, v) :: t, key => if k = key then some v else lookupField t key

/-- Python `d.get(k, dflt)`. -/
def lookupFieldD (d : List (String × JVal)) (key : String) (dflt : JVal) : JVal :=
  (lookupField d key).getD dflt

/-! ## `get_applicable_issues` (src/api.py lines 194-254): response
normalisation and issue filtering -/

/-- The per-issue filter of `get_applicable_issues` (src/api.py lines
222-251): keep the element iff it is a dict and
`shareGroupName == "Ordinary Shares"`, `statusName == "CREATE_APPROVE"`,
`shareTypeName ∈ {IPO, FPO, RESERVED}` (default `""`), and
`action != "inProcess"` (default `""`). -/
def keepIssue : JVal → Bool
  | .obj d =>
    jStrEq (lookupFieldD d "shareGroupName" .null) "Ordinary Shares" &&
    jStrEq (lookupFieldD d "statusName" .null) "CREATE_APPROVE" &&
    (jStrEq (lookupFieldD d "shareTypeName" (.str "")) "IPO" ||
     jStrEq (lookupFieldD d "shareTypeName" (.str "")) "FPO" ||
     jStrEq (lookupFieldD d "shareTypeName" (.str "")) "RESERVED") &&
    !jStrEq (lookupFieldD d "action" (.str "")) "inProcess"
  | _ => false

/-- Python iteration `for issue in raw_issues` over the candidate value:
iterating a list yields its elements, iterating a dict yields its keys,
iterating a string yields its one-character substrings.  Iterating any other
value raises `TypeError`, which the enclosing handler of
`get_applicable_issues` turns into the empty result; the empty element list
models that (the filtered output is empty either way because only dict
elements survive the filter). -/
def pyIter : JVal → List JVal
  | .arr xs => xs
  | .obj kvs => kvs.map (fun kv => .str kv.1)
  | .str s => s.toList.map (fun c => .str (String.mk [c]))
  | _ => []

/-- The envelope extraction of `get_applicable_issues` (src/api.py lines
196-212) for a dict response: the value of the first present key among
`object`, `data`, `content`, `items`, `results`; when none is present the
code keeps the whole dict (`raw_issues = response_data`). -/
def extractRawIssues (kvs : List (String × JVal)) : JVal :=
  match lookupField kvs "object" with
  | some v => v
  | none =>
    match lookupField kvs "data" with
    | some v => v
    | none =>
      match lookupField kvs "content" with
      | some v => v
      | none =>
        match lookupField kvs "items" with
        | some v => v
        | none =>
          match lookupField kvs "results" with
          | some v => v
          | none => .obj kvs

/-- The response-processing core of `get_applicable_issues` (src/api.py lines
194-254), as a function of the parsed JSON response: a dict is unwrapped via
`extractRawIssues` and the resulting candidate value is iterated and
filtered; a list is iterated and filtered directly; any other value is
returned unchanged (src/api.py line 217 `return response_data`). -/
def get_applicable_issues (response_data : JVal) : JVal :=
  match response_data with
  | .obj kvs => .arr ((pyIter (extractRawIssues kvs)).filter keepIssue)
  | .arr xs => .arr (xs.filter keepIssue)
  | other => other

/-! ## `find_applicable_issue_by_company` (src/api.py lines 271-317) -/

/-- The envelope unwrapping at the top of `find_applicable_issue_by_company`
(src/api.py lines 284-296): a dict argument is replaced by the value of the
first present key among `object`, `data`, `content`, `items`, `results`;
a dict with none of those keys is left as the dict itself (and then fails
the list check below). -/
def unwrapIssues : JVal → JVal
  | .obj kvs =>
    match lookupField kvs "object" with
    | some v => v
    | none =>
      match lookupField kvs "data" with
      | some v => v
      | none =>
        match lookupField kvs "content" with
        | some v => v
        | none =>
          match lookupField kvs "items" with
          | some v => v
          | none =>
            match lookupField kvs "results" with
            | some v => v
            | none => .obj kvs
  | other => other

/-- The scan of `find_applicable_issue_by_company` (src/api.py lines
307-317): return the first issue whose lowercased `scrip` or lowercased
`companyName` contains the lowercased query as a substring.  A non-dict
element, or a non-string `scrip`/`companyName` value, makes Python raise
(`AttributeError` from `.get`/`.lower`); that uncaught exception is
modelled as `Except.error`. -/
def findIssueScan (search_company : String) : List JVal → Except String (Option JVal)
  | [] => .ok none
  | issue :: rest =>
    match issue with
    | .obj d =>
      match lookupFieldD d "scrip" (.str ""), lookupFieldD d "companyName" (.str "") with
      | .str scrip, .str cname =>
        if strIn search_company (pyLower scrip) || strIn search_company (pyLower cname) then
          .ok (some issue)
        else
          findIssueScan search_company rest
      | _, _ => .error "AttributeError"
    | _ => .error "AttributeError"

/-- `find_applicable_issue_by_company` (src/api.py lines 271-317): unwrap a
possibly enveloped argument, return `none` for a non-list (or empty)
candidate value, otherwise scan for the first substring hit of the
lowercased query against lowercased `scrip`/`companyName`. -/
def find_applicable_issue_by_company (applicable_issues : JVal)
    (company_name : String) : Except String (Option JVal) :=
  match unwrapIssues applicable_issues with
  | .arr l => findIssueScan (pyLower company_name) l
  | _ => .ok none

/-! ## `fuzzy_match` (src/parser.py lines 5-23)

`SequenceMatcher.ratio` (Python standard library) is abstracted as a
`ratio : String → String → ℚ` parameter; the loop structure, the
case-insensitive substring short-circuit, and the best-score tracking are
embedded faithfully. -/

/-- The case-insensitive bidirectional substring test of src/parser.py line
14: `name.lower() in candidate.lower() or candidate.lower() in name.lower()`. -/
def substrHit (name candidate : String) : Bool :=
  strIn (pyLower name) (pyLower candidate) || strIn (pyLower candidate) (pyLower name)

/-- The candidate loop of `fuzzy_match` (src/parser.py lines 12-23), carrying
the running `best_match` and `best_score` (initially `None` and `0`). -/
def fuzzyGo (ratio : String → String → ℚ) (name : String) (threshold : ℚ) :
    List String → Option String → ℚ → Option String
  | [], best, _ => best
  | c :: rest, best, bestScore =>
    if substrHit name c then some c
    else
      let score := ratio (pyLower name) (pyLower c)
      if threshold < score ∧ bestScore < score then fuzzyGo ratio name threshold rest (some c) score
      else fuzzyGo ratio name threshold rest best bestScore

/-- `fuzzy_match(name, candidates, threshold)` (src/parser.py lines 5-23). -/
def fuzzy_match (ratio : String → String → ℚ) (name : String)
    (candidates : List String) (threshold : ℚ) : Option String :=
  fuzzyGo ratio name threshold candidates none 0

/-! ## A small backtracking regular-expression engine

`src/parser.py` uses `re.search` and `re.sub` with a fixed set of patterns.
The engine below implements Python's leftmost-search backtracking semantics
for exactly the constructs those patterns use: literals (matched
case-insensitively, for `re.IGNORECASE`), character classes, concatenation,
alternation (left-preferring), an optional group `(?:...)?` (greedy), `+`
(greedy) and `+?` (lazy) over a character class, capturing groups, and the
anchors `^` and `$`.  Matching is CPS-style: a constructor either consumes
input and calls the continuation, or backtracks through its alternatives in
Python's preference order. -/

/-- The character classes occurring in the parser's patterns. -/
inductive CClass where
  | space      -- `\s`
  | digit      -- `\d`
  | alpha      -- `[a-zA-Z]`
  | alphaSpace -- `[a-zA-Z\s]`
  | alnum      -- `[a-zA-Z0-9]`
  | alnumSpace -- `[a-zA-Z0-9\s]`

/-- ASCII letter test. -/
def isAsciiAlpha (c : Char) : Bool :=
  ('a' ≤ c && c ≤ 'z') || ('A' ≤ c && c ≤ 'Z')

/-- ASCII digit test. -/
def isAsciiDigit (c : Char) : Bool := '0' ≤ c && c ≤ '9'

/-- Membership of a character in a class. -/
def CClass.mem : CClass → Char → Bool
  | .space, c => pyIsSpace c
  | .digit, c => isAsciiDigit c
  | .alpha, c => isAsciiAlpha c
  | .alphaSpace, c => isAsciiAlpha c || pyIsSpace c
  | .alnum, c => isAsciiAlpha c || isAsciiDigit c
  | .alnumSpace, c => isAsciiAlpha c || isAsciiDigit c || pyIsSpace c

/-- Regular expressions over the constructs used by src/parser.py. -/
inductive RE where
  | lit : List Char → RE      -- literal text, case-insensitive
  | seq : RE → RE → RE        -- concatenation
  | alt : RE → RE → RE        -- `a|b`, preferring the left branch
  | opt : RE → RE             -- `(?:a)?`, greedy
  | plusG : CClass → RE       -- `c+`, greedy
  | plusL : CClass → RE       -- `c+?`, lazy
  | grp : Nat → RE → RE       -- capturing group with its Python group number
  | bos : RE                  -- `^` (no MULTILINE)
  | eos : RE                  -- `$` (no MULTILINE)

/-- Right-nested concatenation of a pattern list. -/
def seqs : List RE → RE
  | [] => .lit []
  | [r] => r
  | r :: t => .seq r (seqs t)

/-- Case-insensitive test that a literal is a prefix of the input suffix. -/
def litPrefix : List Char → List Char → Bool
  | [], _ => true
  | _ :: _, [] => false
  | a :: as, b :: bs => pyLowerChar a = pyLowerChar b && litPrefix as bs

/-- Number of consecutive characters of a class at the head of a list. -/
def countClassAux (cl : CClass) : List Char → Nat
  | [] => 0
  | c :: t => if cl.mem c then countClassAux cl t + 1 else 0

/-- Number of consecutive characters of class `cl` at position `pos` of `s`. -/
def countClass (cl : CClass) (s : List Char) (pos : Nat) : Nat :=
  countClassAux cl (s.drop pos)

/-- Group captures: `(group number, start position, end position)` triples. -/
abbrev Caps := List (Nat × Nat × Nat)

/-- First success of `f` over a list of repeat counts. -/
def firstSome {α : Type} (f : Nat → Option α) : List Nat → Option α
  | [] => none
  | i :: t =>
    match f i with
    | some r => some r
    | none => firstSome f t

/-- CPS matcher: `mtch s r pos caps k` attempts to match `r` at position
`pos` of `s`, calling the continuation `k` with the new position and capture
list for each way of matching, in Python's backtracking preference order,
and returns the first overall success. -/
def mtch {α : Type} (s : List Char) : RE → Nat → Caps → (Nat → Caps → Option α) → Option α
  | .lit l, pos, caps, k =>
    if litPrefix l (s.drop pos) then k (pos + l.length) caps else none
  | .seq r1 r2, pos, caps, k =>
    mtch s r1 pos caps (fun p c => mtch s r2 p c k)
  | .alt r1 r2, pos, caps, k =>
    match mtch s r1 pos caps k with
    | some r => some r
    | none => mtch s r2 pos caps k
  | .opt r, pos, caps, k =>
    match mtch s r pos caps k with
    | some r => some r
    | none => k pos caps
  | .plusG cl, pos, caps, k =>
    firstSome (fun i => k (pos + i) caps) (List.range' 1 (countClass cl s pos)).reverse
  | .plusL cl, pos, caps, k =>
    firstSome (fun i => k (pos + i) caps) (List.range' 1 (countClass cl s pos))
  | .grp n r, pos, caps, k =>
    mtch s r pos caps (fun p c => k p ((n, pos, p) :: c))
  | .bos, pos, caps, k =>
    if pos = 0 then k pos caps else none
  | .eos, pos, caps, k =>
    if pos = s.length || (pos + 1 = s.length && s.drop pos = ['\n']) then k pos caps else none

/-- A successful match: its span and its group captures. -/
structure MatchRes where
  startPos : Nat
  stopPos : Nat
  caps : Caps
deriving DecidableEq

/-- A single match attempt of `re` anchored at position `pos` of `s`. -/
def attemptAt (s : List Char) (re : RE) (pos : Nat) : Option MatchRes :=
  (mtch s re pos [] (fun p c => some (p, c))).map (fun pc => ⟨pos, pc.1, pc.2⟩)

/-- Scan of `re.search`: try `cnt` successive start positions from `pos`,
returning the first (leftmost) position where the pattern matches. -/
def searchFrom (s : List Char) (re : RE) : Nat → Nat → Option MatchRes
  | _, 0 => none
  | pos, cnt + 1 =>
    match attemptAt s re pos with
    | some m => some m
    | none => searchFrom s re (pos + 1) cnt

/-- Python `re.search(re, s)`: leftmost match, trying every start position
(including the position one past the end). -/
def pySearch (s : List Char) (re : RE) : Option MatchRes :=
  searchFrom s re 0 (s.length + 1)

/-- The text of capture group `n` of a match (Python `match.group(n)`),
as a string. -/
def groupStr (s : List Char) (m : MatchRes) (n : Nat) : String :=
  match m.caps.find? (fun c => c.1 = n) with
  | some (_, a, b) => String.mk ((s.drop a).take (b - a))
  | none => ""

/-- Worker for `re.sub(re, '', s)`: `acc` is the output built so far, `pos`
the scan position; each found match contributes nothing to the output
(empty replacement) and scanning resumes at the match end (from one past an
empty match, copying the skipped character, as Python does). -/
def pySubAllAux (s : List Char) (re : RE) : Nat → Nat → List Char → List Char
  | 0, pos, acc => acc ++ s.drop pos
  | fuel + 1, pos, acc =>
    match searchFrom s re pos (s.length + 1 - pos) with
    | none => acc ++ s.drop pos
    | some m =>
      let acc := acc ++ ((s.drop pos).take (m.startPos - pos))
      if m.stopPos = m.startPos then
        pySubAllAux s re fuel (m.startPos + 1) (acc ++ (s.drop m.startPos).take 1)
      else
        pySubAllAux s re fuel m.stopPos acc

/-- Python `re.sub(re, '', s)`: delete every non-overlapping occurrence,
scanning left to right. -/
def pySubAll (re : RE) (s : List Char) : List Char :=
  pySubAllAux s re (s.length + 1) 0 []

/-! ## `extract_person_company_and_kitta` (src/parser.py lines 25-123) -/

/-- Literal pattern text. -/
def litS (s : String) : RE := .lit s.toList

/-- Pattern `(?:appy|apply)\s+(?:ipo\s+)?for\s+([a-zA-Z\s]+?)\s+(?:for\s+)?company\s+([a-zA-Z0-9\s]+)`
(src/parser.py line 40). -/
def pattern1 : RE := seqs [
  .alt (litS "appy") (litS "apply"), .plusG .space,
  .opt (.seq (litS "ipo") (.plusG .space)),
  litS "for", .plusG .space,
  .grp 1 (.plusL .alphaSpace), .plusG .space,
  .opt (.seq (litS "for") (.plusG .space)),
  litS "company", .plusG .space,
  .grp 2 (.plusG .alnumSpace)]

/-- Pattern `(?:appy|apply)\s+(?:ipo\s+)?for\s+([a-zA-Z\s]+?)\s+in\s+([a-zA-Z0-9\s]+)`
(src/parser.py line 43). -/
def pattern2 : RE := seqs [
  .alt (litS "appy") (litS "apply"), .plusG .space,
  .opt (.seq (litS "ipo") (.plusG .space)),
  litS "for", .plusG .space,
  .grp 1 (.plusL .alphaSpace), .plusG .space,
  litS "in", .plusG .space,
  .grp 2 (.plusG .alnumSpace)]

/-- Pattern `ipo\s+([a-zA-Z\s]+?)\s+([a-zA-Z0-9\s]+)` (src/parser.py line 46). -/
def pattern3 : RE := seqs [
  litS "ipo", .plusG .space,
  .grp 1 (.plusL .alphaSpace), .plusG .space,
  .grp 2 (.plusG .alnumSpace)]

/-- Pattern `apply\s+for\s+([a-zA-Z\s]+?)\s+company\s+([a-zA-Z0-9\s]+)`
(src/parser.py line 49). -/
def pattern4 : RE := seqs [
  litS "apply", .plusG .space,
  litS "for", .plusG .space,
  .grp 1 (.plusL .alphaSpace), .plusG .space,
  litS "company", .plusG .space,
  .grp 2 (.plusG .alnumSpace)]

/-- Pattern `^([a-zA-Z]+)\s+([a-zA-Z0-9]+)$` (src/parser.py line 52). -/
def pattern5 : RE := seqs [
  .bos, .grp 1 (.plusG .alpha), .plusG .space, .grp 2 (.plusG .alnum), .eos]

/-- Pattern `for\s+([a-zA-Z\s]+?)\s+([a-zA-Z0-9\s]+)` (src/parser.py line 55). -/
def pattern6 : RE := seqs [
  litS "for", .plusG .space,
  .grp 1 (.plusL .alphaSpace), .plusG .space,
  .grp 2 (.plusG .alnumSpace)]

/-- The template list tried in priority order (src/parser.py lines 38-56). -/
def patternList : List RE := [pattern1, pattern2, pattern3, pattern4, pattern5, pattern6]

/-- Pattern `(\d+)\s+kitta` (src/parser.py line 63). -/
def kittaRE : RE := seqs [.grp 1 (.plusG .digit), .plusG .space, litS "kitta"]

/-- Pattern `^(for|in|company)\s+` (src/parser.py line 111). -/
def cleanFrontRE : RE :=
  seqs [.bos, .grp 1 (.alt (litS "for") (.alt (litS "in") (litS "company"))), .plusG .space]

/-- Pattern `\s+(for|in|company)$` (src/parser.py line 112). -/
def cleanBackRE : RE :=
  seqs [.plusG .space, .grp 1 (.alt (litS "for") (.alt (litS "in") (litS "company"))), .eos]

/-- The stop-word list of src/parser.py lines 91 and 104. -/
def stopwords : List String :=
  ["for", "in", "company", "apply", "appy", "ipo", "the", "a", "an"]

/-- The result record of the intent extractor. -/
structure ParsedIntent where
  person : Option String
  company : Option String
  kitta : Option String
deriving DecidableEq

/-- The template loop (src/parser.py lines 71-82): for each pattern in
order, search the working message; on a match, strip the two captured
phrases and resolve the person phrase with `fuzzy_match` (default threshold
`0.6`); the first pattern that matches and resolves wins, otherwise
continue with the next pattern. -/
def tryPatterns (ratio : String → String → ℚ) (s : List Char) (known : List String) :
    List RE → Option (String × String)
  | [] => none
  | p :: rest =>
    match pySearch s p with
    | some m =>
      let pp := pyStrip (groupStr s m 1)
      let pc := pyStrip (groupStr s m 2)
      match fuzzy_match ratio pp known 0.6 with
      | some mp => some (mp, pc)
      | none => tryPatterns ratio s known rest
    | none => tryPatterns ratio s known rest

/-- The word-based fallback (src/parser.py lines 84-106): scan the words of
the working message, skipping stop-words; the first word that fuzzy-resolves
against `known` becomes the person; the company is the join of the remaining
words with stop-words removed, or stays `None` when the resolving word was
the last one. -/
def wordScan (ratio : String → String → ℚ) (known : List String) :
    List String → Option (String × Option String)
  | [] => none
  | w :: rest =>
    if w ∈ stopwords then wordScan ratio known rest
    else
      match fuzzy_match ratio w known 0.6 with
      | some mp =>
        let comp : Option String :=
          match rest with
          | [] => none
          | _ => some (joinSpace (rest.filter (fun x => !(x ∈ stopwords : Bool))))
        some (mp, comp)
      | none => wordScan ratio known rest

/-- The company clean-up (src/parser.py lines 108-117): a truthy company has
a leading and a trailing `for|in|company` fragment removed and is stripped;
an empty result becomes `None`.  A `None` or empty-string company is left
untouched (Python `if company:`). -/
def cleanupCompany : Option String → Option String
  | none => none
  | some c =>
    if c = "" then some c
    else
      let c2 := pyStrip (String.mk (pySubAll cleanBackRE (pySubAll cleanFrontRE c.toList)))
      if c2 = "" then none else some c2

/-- The lowercased, stripped message with the kitta fragment removed
(src/parser.py lines 35 and 62-68): the working message handed to the
template loop and the word fallback. -/
def workingMsg (msg0 : String) : List Char :=
  let msg := pyStripChars (pyLower msg0).toList
  match pySearch msg kittaRE with
  | some _ => pyStripChars (pySubAll kittaRE msg)
  | none => msg

/-- The captured kitta digits (src/parser.py lines 63-66): the first
`(\d+)\s+kitta` occurrence's digit group, if any. -/
def kittaOf (msg0 : String) : Option String :=
  let msg := pyStripChars (pyLower msg0).toList
  (pySearch msg kittaRE).map (fun m => groupStr msg m 1)

/-- The person/company extraction phases (src/parser.py lines 70-106) on the
working message: the template loop, then the word-based fallback. -/
def personCompanyPhase (ratio : String → String → ℚ) (msg : List Char)
    (known : List String) : Option String × Option String :=
  match tryPatterns ratio msg known patternList with
  | some (p, c) => (some p, some c)
  | none =>
    match wordScan ratio known (pySplitAux msg []) with
    | some (p, c) => (some p, c)
    | none => (none, none)

/-- `extract_person_company_and_kitta(msg, known_people)` (src/parser.py
lines 25-123). -/
def extract_person_company_and_kitta (ratio : String → String → ℚ)
    (msg0 : String) (known_people : List String) : ParsedIntent :=
  let pc := personCompanyPhase ratio (workingMsg msg0) known_people
  ⟨pc.1, cleanupCompany pc.2, kittaOf msg0⟩

/-! ## Helper lemmas -/

/-- The empty string occurs in every string (Python `"" in s`). -/
theorem subIn_nil (l : List Char) : subIn [] l = true := by
  cases l <;> simp [subIn, isPrefixList, List.isEmpty]

/-- The substring short-circuit of the `fuzzy_match` loop: the first
candidate with a substring hit is returned, for any running best state. -/
theorem fuzzyGo_substr (ratio : String → String → ℚ) (q : String) (t : ℚ) :
    ∀ (l1 : List String) (c : String) (l2 : List String) (best : Option String) (bs : ℚ),
      (∀ c' ∈ l1, substrHit q c' = false) → substrHit q c = true →
      fuzzyGo ratio q t (l1 ++ c :: l2) best bs = some c := by
  intro l1
  induction l1 with
  | nil =>
    intro c l2 best bs _ hc
    simp [fuzzyGo, hc]
  | cons d l1 ih =>
    intro c l2 best bs h hc
    have hd : substrHit q d = false := h d (by simp)
    simp only [List.cons_append, fuzzyGo, hd, Bool.false_eq_true, if_false]
    split
    · exact ih c l2 _ _ (fun c' hc' => h c' (by simp [hc'])) hc
    · exact ih c l2 _ _ (fun c' hc' => h c' (by simp [hc'])) hc

/-- When no candidate's score clears both the threshold and the running
best score, the `fuzzy_match` loop returns the running best unchanged. -/
theorem fuzzyGo_no_update (ratio : String → String → ℚ) (q : String) (t : ℚ) :
    ∀ (cs : List String) (best : Option String) (bs : ℚ),
      (∀ c ∈ cs, substrHit q c = false) →
      (∀ c ∈ cs, ratio (pyLower q) (pyLower c) ≤ t ∨ ratio (pyLower q) (pyLower c) ≤ bs) →
      fuzzyGo ratio q t cs best bs = best := by
  intro cs
  induction cs with
  | nil => intro best bs _ _; rfl
  | cons d cs ih =>
    intro best bs hh hs
    have hd : substrHit q d = false := hh d (by simp)
    have hds := hs d (by simp)
    simp only [fuzzyGo, hd, Bool.false_eq_true, if_false]
    have hcond : ¬ (t < ratio (pyLower q) (pyLower d) ∧ bs < ratio (pyLower q) (pyLower d)) := by
      rcases hds with h | h
      · exact fun hc => absurd h (not_le.mpr hc.1)
      · exact fun hc => absurd h (not_le.mpr hc.2)
    rw [if_neg hcond]
    exact ih best bs (fun c hc => hh c (by simp [hc])) (fun c hc => hs c (by simp [hc]))

/-- When some candidate's score strictly exceeds both the threshold and the
running best score (and no candidate has a substring hit), the
`fuzzy_match` loop returns a maximal-scoring candidate above both. -/
theorem fuzzyGo_max (ratio : String → String → ℚ) (q : String) (t : ℚ) :
    ∀ (cs : List String) (best : Option String) (bs : ℚ),
      (∀ c ∈ cs, substrHit q c = false) →
      ∀ c0 ∈ cs, t < ratio (pyLower q) (pyLower c0) → bs < ratio (pyLower q) (pyLower c0) →
      ∃ c, fuzzyGo ratio q t cs best bs = some c ∧ c ∈ cs ∧
        t < ratio (pyLower q) (pyLower c) ∧ bs < ratio (pyLower q) (pyLower c) ∧
        ∀ c' ∈ cs, ratio (pyLower q) (pyLower c') ≤ ratio (pyLower q) (pyLower c) ∨
          ratio (pyLower q) (pyLower c') ≤ bs := by
  intro cs
  induction cs with
  | nil => intro best bs _ c0 hc0; exact absurd hc0 (List.not_mem_nil c0)
  | cons d cs ih =>
    intro best bs hh c0 hc0 ht0 hb0
    have hd : substrHit q d = false := hh d (by simp)
    have hhcs : ∀ c ∈ cs, substrHit q c = false := fun c hc => hh c (by simp [hc])
    simp only [fuzzyGo, hd, Bool.false_eq_true, if_false]
    by_cases hcond : t < ratio (pyLower q) (pyLower d) ∧ bs < ratio (pyLower q) (pyLower d)
    · rw [if_pos hcond]
      by_cases hrest : ∃ c1 ∈ cs, t < ratio (pyLower q) (pyLower c1) ∧
          ratio (pyLower q) (pyLower d) < ratio (pyLower q) (pyLower c1)
      · obtain ⟨c1, hc1, ht1, hd1⟩ := hrest
        obtain ⟨c, hgo, hcm, hct, hcb, hmax⟩ := ih (some d) _ hhcs c1 hc1 ht1 hd1
        refine ⟨c, hgo, by simp [hcm], hct, lt_trans hcond.2 hcb, ?_⟩
        intro c' hc'
        rcases List.mem_cons.mp hc' with h | h
        · subst h; exact Or.inl (le_of_lt hcb)
        · rcases hmax c' h with h2 | h2
          · exact Or.inl h2
          · exact Or.inl (le_trans h2 (le_of_lt hcb))
      · push_neg at hrest
        have hnone : fuzzyGo ratio q t cs (some d) (ratio (pyLower q) (pyLower d)) = some d := by
          apply fuzzyGo_no_update
          · exact hhcs
          · intro c hc
            by_cases hct : t < ratio (pyLower q) (pyLower c)
            · exact Or.inr (hrest c hc hct)
            · exact Or.inl (not_lt.mp hct)
        refine ⟨d, hnone, by simp, hcond.1, hcond.2, ?_⟩
        intro c' hc'
        rcases List.mem_cons.mp hc' with h | h
        · subst h; exact Or.inl le_rfl
        · by_cases hct : t < ratio (pyLower q) (pyLower c')
          · exact Or.inl (hrest c' h hct)
          · exact Or.inl (le_trans (not_lt.mp hct) (le_of_lt hcond.1))
    · rw [if_neg hcond]
      have hc0cs : c0 ∈ cs := by
        rcases List.mem_cons.mp hc0 with h | h
        · subst h; exact absurd ⟨ht0, hb0⟩ hcond
        · exact h
      obtain ⟨c, hgo, hcm, hct, hcb, hmax⟩ := ih best bs hhcs c0 hc0cs ht0 hb0
      refine ⟨c, hgo, by simp [hcm], hct, hcb, ?_⟩
      intro c' hc'
      rcases List.mem_cons.mp hc' with h | h
      · subst h
        rcases not_and_or.mp hcond with h2 | h2
        · exact Or.inl (le_trans (not_lt.mp h2) (le_of_lt hct))
        · exact Or.inr (not_lt.mp h2)
      · exact hmax c' h

/-! ## Claim C10 -/

/-- C10: for an empty query string and every non-empty candidate list,
`fuzzy_match` returns the first candidate regardless of the threshold,
because the empty string is a case-insensitive substring of every candidate
and the substring branch short-circuits. -/
theorem fuzzy_match_empty_query (ratio : String → String → ℚ) (c : String)
    (cs : List String) (threshold : ℚ) :
    fuzzy_match ratio "" (c :: cs) threshold = some c := by
  have h : substrHit "" c = true := by
    simp only [substrHit, strIn, pyLower, Bool.or_eq_true]
    exact Or.inl (by simpa using subIn_nil (pyLower c).toList)
  simp [fuzzy_match, fuzzyGo, h]

/-! ## Claim C4 -/

/-- C4: `fuzzy_match(query, candidates, threshold)`: (1) an empty candidate
list yields none; (2) if some candidate is in a case-insensitive substring
relation with the query (in either direction), the first such candidate is
returned immediately, regardless of fuzzy scores; (3) if no candidate has a
substring hit, then: none is returned when every score is ≤ the threshold,
and otherwise a maximal-scoring candidate whose score strictly exceeds the
threshold is returned.  The similarity `ratio` is abstract; the spec's
guarantee that the threshold is nonnegative (scores lie in `[0,1]` and the
default threshold is `0.6`) is assumed. -/
theorem fuzzy_match_spec (ratio : String → String → ℚ) (q : String)
    (cs : List String) (t : ℚ) (ht : 0 ≤ t) :
    (cs = [] → fuzzy_match ratio q cs t = none) ∧
    (∀ l1 c l2, cs = l1 ++ c :: l2 → (∀ c' ∈ l1, substrHit q c' = false) →
      substrHit q c = true → fuzzy_match ratio q cs t = some c) ∧
    ((∀ c ∈ cs, substrHit q c = false) →
      ((∀ c ∈ cs, ratio (pyLower q) (pyLower c) ≤ t) → fuzzy_match ratio q cs t = none) ∧
      (∀ c0 ∈ cs, t < ratio (pyLower q) (pyLower c0) →
        ∃ c, fuzzy_match ratio q cs t = some c ∧ c ∈ cs ∧
          t < ratio (pyLower q) (pyLower c) ∧
          ∀ c' ∈ cs, ratio (pyLower q) (pyLower c') ≤ ratio (pyLower q) (pyLower c))) := by
  refine ⟨?_, ?_, ?_⟩
  · intro h; subst h; rfl
  · intro l1 c l2 hsplit hl1 hc
    subst hsplit
    exact fuzzyGo_substr ratio q t l1 c l2 none 0 hl1 hc
  · intro hh
    constructor
    · intro hle
      exact fuzzyGo_no_update ratio q t cs none 0 hh (fun c hc => Or.inl (hle c hc))
    · intro c0 hc0 ht0
      have hb0 : (0 : ℚ) < ratio (pyLower q) (pyLower c0) := lt_of_le_of_lt ht ht0
      obtain ⟨c, hgo, hcm, hct, hcb, hmax⟩ := fuzzyGo_max ratio q t cs none 0 hh c0 hc0 ht0 hb0
      refine ⟨c, hgo, hcm, hct, ?_⟩
      intro c' hc'
      rcases hmax c' hc' with h | h
      · exact h
      · exact le_trans h (le_of_lt hcb)

/-- A concrete similarity function used by witnesses: a fixed score for one
specific pair, zero otherwise. -/
def ratioW : String → String → ℚ :=
  fun a b => if a = "aa" ∧ b = "bb" then 1 else 0

theorem fuzzy_match_spec_witness :
    (0 : ℚ) ≤ 0 ∧
    ∃ c, fuzzy_match ratioW "aa" ["bb"] 0 = some c ∧ c ∈ ["bb"] ∧
      (0 : ℚ) < ratioW (pyLower "aa") (pyLower "bb") ∧
      ∀ c' ∈ ["bb"], ratioW (pyLower "aa") (pyLower c') ≤ ratioW (pyLower "aa") (pyLower "bb") := by
  have h := ((fuzzy_match_spec ratioW "aa" ["bb"] 0 le_rfl).2.2
    (by intro c hc; fin_cases hc; rfl)).2 "bb" (by simp) (by decide)
  obtain ⟨c, h1, h2, h3, h4⟩ := h
  exact ⟨le_rfl, c, h1, h2, by rw [show c = "bb" by simpa using h2] at h3; exact h3, by
    intro c' hc'
    have := h4 c' hc'
    rw [show c = "bb" by simpa using h2] at this
    exact this⟩

/-! ## Claims C3 and C8 -/

/-- `jStrEq` decides equality with a string value. -/
theorem jStrEq_iff (v : JVal) (s : String) : jStrEq v s = true ↔ v = .str s := by
  cases v <;> simp [jStrEq]

/-- Failure of `jStrEq` is disequality with the string value. -/
theorem jStrEq_eq_false_iff (v : JVal) (s : String) : jStrEq v s = false ↔ v ≠ .str s := by
  cases v <;> simp [jStrEq]

/-- Keys of a dict are strings, and strings never pass the issue filter. -/
theorem keepIssue_str (s : String) : keepIssue (.str s) = false := rfl

/-- C3 counterexample: a mapping carrying none of the envelope keys that
itself satisfies every filter condition.  The claim says such a mapping is
treated as a single candidate element — the filter keeps it, so the claimed
output is the one-element list holding the mapping.  The code instead
iterates the mapping, i.e. its keys, and every key (a string) is discarded
as a non-mapping, so the output is empty. -/
theorem filter_issues_whole_mapping_counterexample :
    get_applicable_issues (.obj [("shareGroupName", .str "Ordinary Shares"),
      ("statusName", .str "CREATE_APPROVE"), ("shareTypeName", .str "IPO"),
      ("action", .str "new")]) = .arr [] ∧
    keepIssue (.obj [("shareGroupName", .str "Ordinary Shares"),
      ("statusName", .str "CREATE_APPROVE"), ("shareTypeName", .str "IPO"),
      ("action", .str "new")]) = true ∧
    JVal.arr [] ≠ .arr [.obj [("shareGroupName", .str "Ordinary Shares"),
      ("statusName", .str "CREATE_APPROVE"), ("shareTypeName", .str "IPO"),
      ("action", .str "new")]] := by
  refine ⟨rfl, rfl, ?_⟩
  intro h
  exact absurd (congrArg (fun v => match v with | JVal.arr l => l.length | _ => 0) h) (by simp)

/-- C3 (amended): `filter_issues` on a mapping takes the candidate value
from the first present key among `object`, `data`, `content`, `items`,
`results` (in that priority order); if none is present it iterates the
mapping itself, so the candidates are the mapping's keys — strings, all of
which are discarded — and the result is empty.  On a sequence it keeps, in
their original relative order and without de-duplication, exactly the
elements that are mappings satisfying `shareGroupName == "Ordinary Shares"`,
`statusName == "CREATE_APPROVE"`, `shareTypeName ∈ {IPO, FPO, RESERVED}`,
and `action != "inProcess"`. -/
theorem filter_issues_spec :
    (∀ kvs v, lookupField kvs "object" = some v →
      get_applicable_issues (.obj kvs) = .arr ((pyIter v).filter keepIssue)) ∧
    (∀ kvs v, lookupField kvs "object" = none → lookupField kvs "data" = some v →
      get_applicable_issues (.obj kvs) = .arr ((pyIter v).filter keepIssue)) ∧
    (∀ kvs v, lookupField kvs "object" = none → lookupField kvs "data" = none →
      lookupField kvs "content" = some v →
      get_applicable_issues (.obj kvs) = .arr ((pyIter v).filter keepIssue)) ∧
    (∀ kvs v, lookupField kvs "object" = none → lookupField kvs "data" = none →
      lookupField kvs "content" = none → lookupField kvs "items" = some v →
      get_applicable_issues (.obj kvs) = .arr ((pyIter v).filter keepIssue)) ∧
    (∀ kvs v, lookupField kvs "object" = none → lookupField kvs "data" = none →
      lookupField kvs "content" = none → lookupField kvs "items" = none →
      lookupField kvs "results" = some v →
      get_applicable_issues (.obj kvs) = .arr ((pyIter v).filter keepIssue)) ∧
    (∀ kvs, lookupField kvs "object" = none → lookupField kvs "data" = none →
      lookupField kvs "content" = none → lookupField kvs "items" = none →
      lookupField kvs "results" = none →
      get_applicable_issues (.obj kvs) = .arr []) ∧
    (∀ xs : List JVal,
      get_applicable_issues (.arr xs) = .arr (xs.filter keepIssue) ∧
      (xs.filter keepIssue).Sublist xs ∧
      (∀ j, j ∈ xs.filter keepIssue ↔ j ∈ xs ∧ keepIssue j = true)) ∧
    (∀ d, keepIssue (.obj d) = true ↔
      (lookupFieldD d "shareGroupName" .null = .str "Ordinary Shares" ∧
       lookupFieldD d "statusName" .null = .str "CREATE_APPROVE" ∧
       lookupFieldD d "shareTypeName" (.str "") ∈
         [JVal.str "IPO", JVal.str "FPO", JVal.str "RESERVED"] ∧
       lookupFieldD d "action" (.str "") ≠ .str "inProcess")) ∧
    (∀ j : JVal, (∀ d, j ≠ .obj d) → keepIssue j = false) := by
  refine ⟨?_, ?_, ?_, ?_, ?_, ?_, ?_, ?_, ?_⟩
  · intro kvs v h
    simp [get_applicable_issues, extractRawIssues, h]
  · intro kvs v h1 h2
    simp [get_applicable_issues, extractRawIssues, h1, h2]
  · intro kvs v h1 h2 h3
    simp [get_applicable_issues, extractRawIssues, h1, h2, h3]
  · intro kvs v h1 h2 h3 h4
    simp [get_applicable_issues, extractRawIssues, h1, h2, h3, h4]
  · intro kvs v h1 h2 h3 h4 h5
    simp [get_applicable_issues, extractRawIssues, h1, h2, h3, h4, h5]
  · intro kvs h1 h2 h3 h4 h5
    simp only [get_applicable_issues, extractRawIssues, h1, h2, h3, h4, h5]
    have : (pyIter (.obj kvs)).filter keepIssue = [] := by
      apply List.filter_eq_nil_iff.mpr
      intro j hj
      simp only [pyIter, List.mem_map] at hj
      obtain ⟨kv, _, hkv⟩ := hj
      subst hkv
      simp [keepIssue]
    rw [this]
  · intro xs
    refine ⟨rfl, List.filter_sublist xs, ?_⟩
    intro j
    simp [List.mem_filter]
  · intro d
    simp only [keepIssue, Bool.and_eq_true, Bool.or_eq_true, Bool.not_eq_true',
      jStrEq_iff, jStrEq_eq_false_iff, List.mem_cons, List.not_mem_nil, or_false]
    tauto
  · intro j hj
    cases j with
    | obj d => exact absurd rfl (hj d)
    | null => rfl
    | bool b => rfl
    | num n => rfl
    | str s => rfl
    | arr l => rfl

theorem filter_issues_spec_witness :
    get_applicable_issues (.obj [("totalCount", .num 1),
      ("object", .arr [.obj [("shareGroupName", .str "Ordinary Shares"),
        ("statusName", .str "CREATE_APPROVE"), ("shareTypeName", .str "IPO"),
        ("action", .str "new")], .str "junk"])]) =
      .arr [.obj [("shareGroupName", .str "Ordinary Shares"),
        ("statusName", .str "CREATE_APPROVE"), ("shareTypeName", .str "IPO"),
        ("action", .str "new")]] := by
  have h := filter_issues_spec.1 [("totalCount", .num 1),
    ("object", .arr [.obj [("shareGroupName", .str "Ordinary Shares"),
      ("statusName", .str "CREATE_APPROVE"), ("shareTypeName", .str "IPO"),
      ("action", .str "new")], .str "junk"])]
    (.arr [.obj [("shareGroupName", .str "Ordinary Shares"),
      ("statusName", .str "CREATE_APPROVE"), ("shareTypeName", .str "IPO"),
      ("action", .str "new")], .str "junk"]) rfl
  rw [h]
  rfl

/-- C8: the issue filtering step is idempotent — filtering an
already-filtered list returns the same list. -/
theorem filter_issues_idempotent (xs : List JVal) :
    get_applicable_issues (get_applicable_issues (.arr xs)) =
      get_applicable_issues (.arr xs) := by
  have hff : ∀ l : List JVal, (l.filter keepIssue).filter keepIssue = l.filter keepIssue := by
    intro l
    induction l with
    | nil => rfl
    | cons a t ih =>
      by_cases h : keepIssue a <;> simp [List.filter_cons, h, ih]
  simp [get_applicable_issues, hff]

/-! ## Claim C5 -/

/-- An issue element on which the scan of `find_applicable_issue_by_company`
cannot raise: a mapping whose `scrip` and `companyName` values (default
`""`) are strings. -/
def wfIssue : JVal → Bool
  | .obj d =>
    (match lookupFieldD d "scrip" (.str "") with
     | .str _ => true
     | _ => false) &&
    (match lookupFieldD d "companyName" (.str "") with
     | .str _ => true
     | _ => false)
  | _ => false

/-- The match condition of `find_applicable_issue_by_company`: the
lowercased query occurs as a substring of the lowercased `scrip` or of the
lowercased `companyName` (query-in-field only — the reverse direction is
not tested). -/
def issueHit (q : String) : JVal → Bool
  | .obj d =>
    (match lookupFieldD d "scrip" (.str "") with
     | .str s => strIn (pyLower q) (pyLower s)
     | _ => false) ||
    (match lookupFieldD d "companyName" (.str "") with
     | .str s => strIn (pyLower q) (pyLower s)
     | _ => false)
  | _ => false

/-- On a list of well-formed issues, the scan returns the first hit of
`issueHit` (or none if there is none). -/
theorem findIssueScan_eq_find (q : String) :
    ∀ l : List JVal, (∀ j ∈ l, wfIssue j = true) →
      findIssueScan (pyLower q) l = .ok (l.find? (issueHit q)) := by
  intro l
  induction l with
  | nil => intro _; rfl
  | cons j t ih =>
    intro h
    have hj := h j (List.mem_cons_self j t)
    have ht : ∀ x ∈ t, wfIssue x = true := fun x hx => h x (List.mem_cons_of_mem j hx)
    cases j with
    | obj d =>
      have hex : ∃ s1 s2, lookupFieldD d "scrip" (.str "") = .str s1 ∧
          lookupFieldD d "companyName" (.str "") = .str s2 := by
        simp only [wfIssue, Bool.and_eq_true] at hj
        obtain ⟨h1, h2⟩ := hj
        cases hA : lookupFieldD d "scrip" (.str "") <;> rw [hA] at h1 <;> simp at h1
        rename_i s1
        cases hB : lookupFieldD d "companyName" (.str "") <;> rw [hB] at h2 <;> simp at h2
        rename_i s2
        exact ⟨s1, s2, rfl, rfl⟩
      obtain ⟨s1, s2, hs, hc⟩ := hex
      have hhit : issueHit q (.obj d) =
          (strIn (pyLower q) (pyLower s1) || strIn (pyLower q) (pyLower s2)) := by
        simp [issueHit, hs, hc]
      simp only [findIssueScan, hs, hc]
      by_cases hcond : (strIn (pyLower q) (pyLower s1) || strIn (pyLower q) (pyLower s2)) = true
      · rw [if_pos hcond, List.find?_cons_of_pos _ (by rw [hhit]; exact hcond)]
      · rw [if_neg hcond, List.find?_cons_of_neg _ (by rw [hhit]; simpa using hcond), ih ht]
    | null => simp [wfIssue] at hj
    | bool b => simp [wfIssue] at hj
    | num n => simp [wfIssue] at hj
    | str s => simp [wfIssue] at hj
    | arr a => simp [wfIssue] at hj

/-- C5: `find_applicable_issue_by_company` lowercases the query, scans the
issue list in order and returns the first issue whose lowercased `scrip` or
lowercased company name contains the query as a substring (query-in-field
only); with no hit across the whole list it returns none (no fuzzy
fallback); and it unwraps input still enveloped under
`object`/`data`/`content`/`items`/`results` before scanning.  The
concrete conjuncts show that a field-in-query-only relation is **not** a
hit, and that `"ABC"` matches `scrip="abc1"` case-insensitively. -/
theorem find_issue_spec :
    (∀ (l : List JVal) (q : String), (∀ j ∈ l, wfIssue j = true) →
      find_applicable_issue_by_company (.arr l) q = .ok (l.find? (issueHit q))) ∧
    (∀ kvs (l : List JVal) q, lookupField kvs "object" = some (.arr l) →
      find_applicable_issue_by_company (.obj kvs) q =
        find_applicable_issue_by_company (.arr l) q) ∧
    (∀ kvs (l : List JVal) q, lookupField kvs "object" = none →
      lookupField kvs "data" = some (.arr l) →
      find_applicable_issue_by_company (.obj kvs) q =
        find_applicable_issue_by_company (.arr l) q) ∧
    (∀ kvs (l : List JVal) q, lookupField kvs "object" = none →
      lookupField kvs "data" = none → lookupField kvs "content" = some (.arr l) →
      find_applicable_issue_by_company (.obj kvs) q =
        find_applicable_issue_by_company (.arr l) q) ∧
    (∀ kvs (l : List JVal) q, lookupField kvs "object" = none →
      lookupField kvs "data" = none → lookupField kvs "content" = none →
      lookupField kvs "items" = some (.arr l) →
      find_applicable_issue_by_company (.obj kvs) q =
        find_applicable_issue_by_company (.arr l) q) ∧
    (∀ kvs (l : List JVal) q, lookupField kvs "object" = none →
      lookupField kvs "data" = none → lookupField kvs "content" = none →
      lookupField kvs "items" = none → lookupField kvs "results" = some (.arr l) →
      find_applicable_issue_by_company (.obj kvs) q =
        find_applicable_issue_by_company (.arr l) q) ∧
    (strIn "ab" "abc" = true ∧
      find_applicable_issue_by_company
        (.arr [.obj [("scrip", .str "ab"), ("companyName", .str "xx")]]) "abc" = .ok none) ∧
    (find_applicable_issue_by_company
        (.arr [.obj [("scrip", .str "abc1"), ("companyName", .str "Abc Company")]]) "ABC" =
      .ok (some (.obj [("scrip", .str "abc1"), ("companyName", .str "Abc Company")]))) := by
  refine ⟨?_, ?_, ?_, ?_, ?_, ?_, ⟨rfl, rfl⟩, rfl⟩
  · intro l q h
    simpa [find_applicable_issue_by_company, unwrapIssues] using findIssueScan_eq_find q l h
  · intro kvs l q h
    simp [find_applicable_issue_by_company, unwrapIssues, h]
  · intro kvs l q h1 h2
    simp [find_applicable_issue_by_company, unwrapIssues, h1, h2]
  · intro kvs l q h1 h2 h3
    simp [find_applicable_issue_by_company, unwrapIssues, h1, h2, h3]
  · intro kvs l q h1 h2 h3 h4
    simp [find_applicable_issue_by_company, unwrapIssues, h1, h2, h3, h4]
  · intro kvs l q h1 h2 h3 h4 h5
    simp [find_applicable_issue_by_company, unwrapIssues, h1, h2, h3, h4, h5]

theorem find_issue_spec_witness :
    find_applicable_issue_by_company
      (.arr [.obj [("scrip", .str "xx"), ("companyName", .str "Other Ltd")],
        .obj [("scrip", .str "abc1"), ("companyName", .str "Abc Company")]]) "abc" =
      .ok (some (.obj [("scrip", .str "abc1"), ("companyName", .str "Abc Company")])) := by
  have h := find_issue_spec.1
    [.obj [("scrip", .str "xx"), ("companyName", .str "Other Ltd")],
      .obj [("scrip", .str "abc1"), ("companyName", .str "Abc Company")]] "abc"
    (by intro j hj; fin_cases hj <;> rfl)
  rw [h]
  rfl

/-! ## Claims C6 and C7 -/

/-- A successful anchored attempt starts where it was anchored. -/
theorem attemptAt_startPos (s : List Char) (re : RE) (pos : Nat) (m : MatchRes)
    (h : attemptAt s re pos = some m) : m.startPos = pos := by
  unfold attemptAt at h
  cases hm : mtch s re pos [] (fun p c => some (p, c)) with
  | none => rw [hm] at h; exact absurd h (by simp)
  | some pc =>
    rw [hm] at h
    have h2 : MatchRes.mk pos pc.1 pc.2 = m := by simpa using h
    rw [← h2]

/-- The scan of `re.search` returns the leftmost matching position: a found
match is an anchored success at its own start position, and every earlier
position in the scanned range has no anchored match. -/
theorem searchFrom_first (s : List Char) (re : RE) :
    ∀ (cnt pos : Nat) (m : MatchRes), searchFrom s re pos cnt = some m →
      pos ≤ m.startPos ∧ attemptAt s re m.startPos = some m ∧
      ∀ q, pos ≤ q → q < m.startPos → attemptAt s re q = none := by
  intro cnt
  induction cnt with
  | zero =>
    intro pos m h
    rw [show searchFrom s re pos 0 = none from rfl] at h
    exact Option.noConfusion h
  | succ n ih =>
    intro pos m h
    simp only [searchFrom] at h
    cases ha : attemptAt s re pos with
    | some m0 =>
      rw [ha] at h
      have hm : m0 = m := by simpa using h
      subst hm
      have hsp := attemptAt_startPos s re pos m0 ha
      refine ⟨le_of_eq hsp.symm, by rw [hsp]; exact ha, ?_⟩
      intro q hq1 hq2
      rw [hsp] at hq2
      omega
    | none =>
      rw [ha] at h
      obtain ⟨h1, h2, h3⟩ := ih (pos + 1) m h
      refine ⟨by omega, h2, ?_⟩
      intro q hq1 hq2
      rcases Nat.eq_or_lt_of_le hq1 with he | hl
      · rw [← he]; exact ha
      · exact h3 q hl hq2

/-- C6: the intent extractor is total (it never raises: absent fields are
represented by `none`); the captured kitta is the digit group of the
leftmost `(\d+)\s+kitta` match of the lowercased stripped message — when a
match exists, no earlier position matches (only the first occurrence is
honored), the working message handed to the template/fallback phases is the
message with the kitta pattern deleted and re-stripped, and with no match
the kitta field is `none`. -/
theorem extract_total_and_first_kitta (ratio : String → String → ℚ)
    (msg : String) (known : List String) :
    (∃ r : ParsedIntent, extract_person_company_and_kitta ratio msg known = r) ∧
    (extract_person_company_and_kitta ratio msg known).kitta =
      (pySearch (pyStripChars (pyLower msg).toList) kittaRE).map
        (fun m => groupStr (pyStripChars (pyLower msg).toList) m 1) ∧
    (∀ m, pySearch (pyStripChars (pyLower msg).toList) kittaRE = some m →
      attemptAt (pyStripChars (pyLower msg).toList) kittaRE m.startPos = some m ∧
      (∀ p < m.startPos, attemptAt (pyStripChars (pyLower msg).toList) kittaRE p = none) ∧
      extract_person_company_and_kitta ratio msg known =
        ⟨(personCompanyPhase ratio
            (pyStripChars (pySubAll kittaRE (pyStripChars (pyLower msg).toList))) known).1,
         cleanupCompany (personCompanyPhase ratio
            (pyStripChars (pySubAll kittaRE (pyStripChars (pyLower msg).toList))) known).2,
         some (groupStr (pyStripChars (pyLower msg).toList) m 1)⟩) ∧
    (pySearch (pyStripChars (pyLower msg).toList) kittaRE = none →
      (extract_person_company_and_kitta ratio msg known).kitta = none) := by
  refine ⟨⟨_, rfl⟩, rfl, ?_, ?_⟩
  · intro m hm
    obtain ⟨_, h2, h3⟩ := searchFrom_first (pyStripChars (pyLower msg).toList) kittaRE
      (pyStripChars (pyLower msg).toList).length.succ 0 m hm
    refine ⟨h2, fun p hp => h3 p (Nat.zero_le p) hp, ?_⟩
    simp only [extract_person_company_and_kitta, workingMsg, kittaOf, hm]
    rfl
  · intro hm
    simp only [extract_person_company_and_kitta, kittaOf, hm]
    rfl

/-- A concrete similarity function for witnesses that never fires. -/
def zeroRatio : String → String → ℚ := fun _ _ => 0

theorem extract_total_and_first_kitta_witness :
    pySearch (pyStripChars (pyLower "ab 5 kitta").toList) kittaRE =
      some ⟨3, 10, [(1, 3, 4)]⟩ ∧
    (extract_person_company_and_kitta zeroRatio "ab 5 kitta" []).kitta = some "5" ∧
    attemptAt (pyStripChars (pyLower "ab 5 kitta").toList) kittaRE 0 = none := by
  have h := extract_total_and_first_kitta zeroRatio "ab 5 kitta" []
  have hs : pySearch (pyStripChars (pyLower "ab 5 kitta").toList) kittaRE =
      some ⟨3, 10, [(1, 3, 4)]⟩ := rfl
  refine ⟨hs, ?_, ?_⟩
  · rw [h.2.1, hs]; rfl
  · exact (h.2.2.1 ⟨3, 10, [(1, 3, 4)]⟩ hs).2.1 0 (by norm_num)

/-- C7: the two concrete extractor examples of the spec, for every
similarity function (the substring short-circuit resolves both person
phrases before any fuzzy score is consulted). -/
theorem extract_spec_examples (ratio : String → String → ℚ) :
    extract_person_company_and_kitta ratio
        "apply ipo for nene for company urja 10 kitta" ["nene", "kaka"] =
      ⟨some "nene", some "urja", some "10"⟩ ∧
    extract_person_company_and_kitta ratio "kaka abc" ["kaka"] =
      ⟨some "kaka", some "abc", none⟩ :=
  ⟨rfl, rfl⟩

/-! ## `apply_ipo` (src/api.py lines 534-646)

The broker calls made inside `apply_ipo` (`get_user_details`,
`get_bank_ids`, `get_reserved_quantity`, `get_account_details`, and the
application POST) are network calls; they are modelled as oracles in an
`ApplyEnv`, each an `Except` whose error is a raised Python exception's
message. -/

/-- The fields of `get_user_details()` used by `apply_ipo`
(`user_details.get("demat", "")`, `user_details.get("boid", "")`). -/
structure UserDetails where
  demat : String
  boid : String

/-- The sheet row fields used by `apply_ipo`: `user_row.get("appliedKitta")`
(absent modelled as `none`), `user_row["crnNumber"]`,
`user_row["transactionPIN"]` (present; kept as strings to preserve leading
zeros). -/
structure UserRow where
  appliedKitta : Option String
  crnNumber : String
  transactionPIN : String

/-- The account fields extracted by `get_account_details` (each defaulted
to `""` by `.get`). -/
structure AccountDetails where
  accountNumber : String
  customerId : String
  accountBranchId : String
  accountTypeId : String

/-- The application payload built in src/api.py lines 604-620
(`shareCriteriaId` attached only when present). -/
structure ApplicationData where
  demat : String
  boid : String
  accountNumber : String
  customerId : String
  accountBranchId : String
  accountTypeId : String
  appliedKitta : String
  crnNumber : String
  transactionPIN : String
  companyShareId : String
  bankId : String
  shareCriteriaId : Option String
deriving DecidableEq

/-- Oracles for the broker calls of one `apply_ipo` invocation. -/
structure ApplyEnv where
  userDetails : Except String UserDetails
  bankIds : Except String (List String)
  reservedLookup : Except String (String × String)
  accountDetails : String → Except String AccountDetails
  submit : ApplicationData → Except String JVal

/-- Quantity resolution (src/api.py lines 555-568): start from the default
`"10"`; a non-empty sheet value (`if sheet_kitta and sheet_kitta != ""`)
replaces it; a truthy `message_kitta` (`if message_kitta:` — false for both
`None` and `""`) overrides both. -/
def resolveAppliedKitta (message_kitta : Option String) (sheet_kitta : Option String) : String :=
  let ak := "10"
  let ak :=
    match sheet_kitta with
    | some s => if s ≠ "" then s else ak
    | none => ak
  match message_kitta with
  | some mk => if mk ≠ "" then mk else ak
  | none => ak

/-- The RESERVED handling (src/api.py lines 570-592): only for
`share_type_name == "RESERVED"`; an empty demat or company-share id raises
inside the `try` and is caught (keeping the resolved quantity, no criteria
id); a successful lookup overrides the quantity and supplies the
share-criteria id; a failed lookup keeps the resolved quantity and omits
the criteria id. -/
def reservedPhase (share_type_name : Option String) (demat companyShareId : String)
    (lookup : Except String (String × String)) (ak : String) : String × Option String :=
  if share_type_name = some "RESERVED" then
    if demat = "" then (ak, none)
    else if companyShareId = "" then (ak, none)
    else
      match lookup with
      | .ok (rq, scid) => (rq, some scid)
      | .error _ => (ak, none)
  else (ak, none)

/-- The payload of src/api.py lines 604-620. -/
def mkApplicationData (ud : UserDetails) (acct : AccountDetails) (row : UserRow)
    (ak companyShareId bankId : String) (scid : Option String) : ApplicationData :=
  ⟨ud.demat, ud.boid, acct.accountNumber, acct.customerId, acct.accountBranchId,
   acct.accountTypeId, ak, row.crnNumber, row.transactionPIN, companyShareId, bankId, scid⟩

/-- One iteration body of the bank loop (src/api.py lines 599-628): fetch
the account details for the bank id (a failure there is the iteration's
failure, with no payload built), build the payload, submit it.  Returns
the payload (when one was built) and the submission outcome. -/
def tryBank (env : ApplyEnv) (ud : UserDetails) (row : UserRow)
    (ak companyShareId : String) (scid : Option String) (b : String) :
    Option ApplicationData × Except String JVal :=
  match env.accountDetails b with
  | .error e => (none, .error e)
  | .ok acct =>
    let pd := mkApplicationData ud acct row ak companyShareId b scid
    (some pd, env.submit pd)

/-- The quantity and criteria id actually used by the bank loop. -/
def resolvedKitta (env : ApplyEnv) (ud : UserDetails) (row : UserRow)
    (message_kitta share_type_name : Option String) (companyShareId : String) :
    String × Option String :=
  reservedPhase share_type_name ud.demat companyShareId env.reservedLookup
    (resolveAppliedKitta message_kitta row.appliedKitta)

/-- The per-bank attempt of `apply_ipo` with the resolved quantity. -/
def submitAttempt (env : ApplyEnv) (ud : UserDetails) (row : UserRow)
    (message_kitta share_type_name : Option String) (companyShareId : String)
    (b : String) : Option ApplicationData × Except String JVal :=
  tryBank env ud row (resolvedKitta env ud row message_kitta share_type_name companyShareId).1
    companyShareId (resolvedKitta env ud row message_kitta share_type_name companyShareId).2 b

/-- The outcome of `apply_ipo`: the returned value or raised error, the bank
ids whose loop iteration was entered, and the payloads that reached the
submission POST. -/
structure ApplyOutcome where
  result : Except String JVal
  attempts : List String
  payloads : List ApplicationData

/-- The bank fallback loop (src/api.py lines 596-646): on success return
immediately; on failure, if the current bank id **equals the last element**
of the list (`if bank_id == bank_ids[-1]`, a comparison by value, not by
position), raise the aggregate error naming the last failure, otherwise
continue with the next id.  Falling off the loop raises the
"No bank IDs available" error (src/api.py line 646). -/
def applyBankLoop (tb : String → Option ApplicationData × Except String JVal)
    (last : String) : List String → ApplyOutcome
  | [] => ⟨.error "No bank IDs available for IPO application", [], []⟩
  | b :: rest =>
    match tb b with
    | (pd, .ok r) => ⟨.ok r, [b], pd.toList⟩
    | (pd, .error e) =>
      if b = last then
        ⟨.error ("IPO Application failed with all bank IDs. Last error: " ++ e), [b], pd.toList⟩
      else
        let o := applyBankLoop tb last rest
        ⟨o.result, b :: o.attempts, pd.toList ++ o.payloads⟩

/-- `apply_ipo(token, data, user_row, message_kitta, share_type_name)`
(src/api.py lines 534-646): fetch user details and bank ids, fail
immediately on an empty bank-id list, resolve the quantity, run the
RESERVED phase, then iterate the bank ids. -/
def apply_ipo (env : ApplyEnv) (companyShareId : String) (user_row : UserRow)
    (message_kitta : Option String) (share_type_name : Option String) : ApplyOutcome :=
  match env.userDetails with
  | .error e => ⟨.error e, [], []⟩
  | .ok ud =>
    match env.bankIds with
    | .error e => ⟨.error e, [], []⟩
    | .ok bankIds =>
      if bankIds = [] then ⟨.error "No bank IDs available from CDSC API", [], []⟩
      else
        applyBankLoop (submitAttempt env ud user_row message_kitta share_type_name companyShareId)
          (bankIds.getLastD "") bankIds

/-! ## Claim C1 -/

/-- Success inside the bank loop: if every earlier id fails (and none of
them equals the loop's "last id" value), the loop returns the first
success, having attempted exactly the prefix up to and including it. -/
theorem applyBankLoop_success (tb : String → Option ApplicationData × Except String JVal)
    (last : String) :
    ∀ (l1 : List String) (b : String) (l2 : List String) (r : JVal),
      (∀ b' ∈ l1, b' ≠ last ∧ ∃ e, (tb b').2 = .error e) →
      (tb b).2 = .ok r →
      (applyBankLoop tb last (l1 ++ b :: l2)).result = .ok r ∧
      (applyBankLoop tb last (l1 ++ b :: l2)).attempts = l1 ++ [b] := by
  intro l1
  induction l1 with
  | nil =>
    intro b l2 r _ hok
    cases htb : tb b with
    | mk pd res =>
      rw [htb] at hok
      simp only at hok
      subst hok
      simp [applyBankLoop, htb]
  | cons d l1 ih =>
    intro b l2 r h hok
    obtain ⟨hne, e, herr⟩ := h d (List.mem_cons_self d l1)
    cases htb : tb d with
    | mk pd res =>
      rw [htb] at herr
      simp only at herr
      subst herr
      have hrec := ih b l2 r (fun b' hb' => h b' (List.mem_cons_of_mem d hb')) hok
      simp only [List.cons_append, applyBankLoop, htb, if_neg hne]
      exact ⟨hrec.1, by simp [List.append_eq, hrec.2]⟩

/-- Exhaustion of the bank loop: if every id before the last fails (and
differs from the last id's value) and the last id fails too, the loop
raises the aggregate error naming the last failure, having attempted every
id. -/
theorem applyBankLoop_allfail (tb : String → Option ApplicationData × Except String JVal)
    (last : String) :
    ∀ (l1 : List String) (b : String) (e : String),
      (∀ b' ∈ l1, b' ≠ last ∧ ∃ e', (tb b').2 = .error e') →
      (tb b).2 = .error e → b = last →
      (applyBankLoop tb last (l1 ++ [b])).result =
        .error ("IPO Application failed with all bank IDs. Last error: " ++ e) ∧
      (applyBankLoop tb last (l1 ++ [b])).attempts = l1 ++ [b] := by
  intro l1
  induction l1 with
  | nil =>
    intro b e _ herr hlast
    subst hlast
    cases htb : tb b with
    | mk pd res =>
      rw [htb] at herr
      simp only at herr
      subst herr
      simp [applyBankLoop, htb]
  | cons d l1 ih =>
    intro b e h herr hlast
    obtain ⟨hne, e', herr'⟩ := h d (List.mem_cons_self d l1)
    cases htb : tb d with
    | mk pd res =>
      rw [htb] at herr'
      simp only at herr'
      subst herr'
      have hrec := ih b e (fun b' hb' => h b' (List.mem_cons_of_mem d hb')) herr hlast
      simp only [List.cons_append, applyBankLoop, htb, if_neg hne]
      exact ⟨hrec.1, by simp [List.append_eq, hrec.2]⟩

/-- The bank loop on a non-empty list always enters its first iteration. -/
theorem applyBankLoop_cons_attempts_ne_nil
    (tb : String → Option ApplicationData × Except String JVal)
    (last b : String) (rest : List String) :
    (applyBankLoop tb last (b :: rest)).attempts ≠ [] := by
  cases htb : tb b with
  | mk pd res =>
    cases res with
    | ok r => simp [applyBankLoop, htb]
    | error e =>
      simp only [applyBankLoop, htb]
      split <;> simp

/-- The last element of a concatenation ending in a singleton. -/
theorem getLastD_concat (l : List String) (b d : String) : (l ++ [b]).getLastD d = b := by
  induction l with
  | nil => rfl
  | cons a t ih =>
    cases t with
    | nil => rfl
    | cons c t2 => simp only [List.cons_append, List.getLastD_cons] at ih ⊢; exact ih

/-- C1 (amended): `apply_ipo` attempts the bank ids strictly in list order;
on the first success it returns that result immediately; on a failure it
proceeds to the next id — **provided the attempted id does not equal the
value of the last id in the list** (the code tests `bank_id ==
bank_ids[-1]`, a comparison by value): when the last id's value also occurs
earlier, a failure on that earlier occurrence already raises the aggregate
error without attempting the remaining ids.  For a list whose last element
occurs only once (e.g. any duplicate-free list), the original claim holds:
first success returned after exactly the failing prefix, aggregate error
naming the last failure only after every id failed, and an empty bank-id
list fails immediately with no attempt. -/
theorem apply_ipo_bank_fallback (env : ApplyEnv) (cs : String) (row : UserRow)
    (mk stn : Option String) (ud : UserDetails) (bids : List String)
    (hud : env.userDetails = .ok ud) (hb : env.bankIds = .ok bids)
    (hlast : bids.getLastD "" ∉ bids.dropLast) :
    (bids = [] → apply_ipo env cs row mk stn =
      ⟨.error "No bank IDs available from CDSC API", [], []⟩) ∧
    (∀ l1 b l2 r, bids = l1 ++ b :: l2 →
      (∀ b' ∈ l1, ∃ e, (submitAttempt env ud row mk stn cs b').2 = .error e) →
      (submitAttempt env ud row mk stn cs b).2 = .ok r →
      (apply_ipo env cs row mk stn).result = .ok r ∧
      (apply_ipo env cs row mk stn).attempts = l1 ++ [b]) ∧
    (∀ l1 b e, bids = l1 ++ [b] →
      (∀ b' ∈ l1, ∃ e', (submitAttempt env ud row mk stn cs b').2 = .error e') →
      (submitAttempt env ud row mk stn cs b).2 = .error e →
      (apply_ipo env cs row mk stn).result =
        .error ("IPO Application failed with all bank IDs. Last error: " ++ e) ∧
      (apply_ipo env cs row mk stn).attempts = bids) := by
  refine ⟨?_, ?_, ?_⟩
  · intro hnil
    subst hnil
    simp [apply_ipo, hud, hb]
  · intro l1 b l2 r hsplit hfail hok
    have hne : bids ≠ [] := by rw [hsplit]; simp
    have hloop : apply_ipo env cs row mk stn =
        applyBankLoop (submitAttempt env ud row mk stn cs) (bids.getLastD "") bids := by
      simp [apply_ipo, hud, hb, hne]
    have hmem : ∀ b' ∈ l1, b' ≠ bids.getLastD "" ∧
        ∃ e, (submitAttempt env ud row mk stn cs b').2 = .error e := by
      intro b' hb'
      refine ⟨?_, hfail b' hb'⟩
      intro hcontra
      apply hlast
      rw [← hcontra, hsplit, List.dropLast_append_cons]
      exact List.mem_append_left _ hb'
    rw [hloop, hsplit]
    rw [hsplit] at hmem
    exact applyBankLoop_success _ _ l1 b l2 r hmem hok
  · intro l1 b e hsplit hfail herr
    have hne : bids ≠ [] := by rw [hsplit]; simp
    have hloop : apply_ipo env cs row mk stn =
        applyBankLoop (submitAttempt env ud row mk stn cs) (bids.getLastD "") bids := by
      simp [apply_ipo, hud, hb, hne]
    have hlastval : bids.getLastD "" = b := by rw [hsplit]; exact getLastD_concat l1 b ""
    have hmem : ∀ b' ∈ l1, b' ≠ bids.getLastD "" ∧
        ∃ e', (submitAttempt env ud row mk stn cs b').2 = .error e' := by
      intro b' hb'
      refine ⟨?_, hfail b' hb'⟩
      intro hcontra
      apply hlast
      rw [← hcontra, hsplit, List.dropLast_concat]
      exact hb'
    rw [hloop, hsplit]
    rw [hsplit] at hmem hlastval
    exact applyBankLoop_allfail _ _ l1 b e hmem herr hlastval.symm

/-- Bank-loop environment for the C1 counterexample: ids `["A","B","A"]`,
submissions succeed exactly for bank id `"B"`. -/
def envC1cex : ApplyEnv where
  userDetails := .ok ⟨"D", "B0"⟩
  bankIds := .ok ["A", "B", "A"]
  reservedLookup := .error "unused"
  accountDetails := fun _ => .ok ⟨"acc", "cust", "br", "ty"⟩
  submit := fun pd => if pd.bankId = "B" then .ok (.str "applied") else .error "bank rejected"

/-- C1 counterexample: with bank ids `["A","B","A"]` where `"A"` fails and
`"B"` succeeds, the claim demands that the failure on the first id lead to
an attempt on `"B"` and an immediate success.  The code instead compares
the failing id with `bank_ids[-1]` by value, concludes it is "the last"
and raises the aggregate error after attempting only `["A"]` — even though
the submission for `"B"` (third conjunct) would have succeeded. -/
theorem apply_ipo_duplicate_last_counterexample :
    (apply_ipo envC1cex "7" ⟨none, "crn", "pin"⟩ none none).result =
      .error "IPO Application failed with all bank IDs. Last error: bank rejected" ∧
    (apply_ipo envC1cex "7" ⟨none, "crn", "pin"⟩ none none).attempts = ["A"] ∧
    (submitAttempt envC1cex ⟨"D", "B0"⟩ ⟨none, "crn", "pin"⟩ none none "7" "B").2 =
      .ok (.str "applied") :=
  ⟨rfl, rfl, rfl⟩

/-- Bank-loop environment for the C1 witness: ids `["1","2","3"]`, only
`"3"` succeeds. -/
def envC1w : ApplyEnv where
  userDetails := .ok ⟨"D", "B0"⟩
  bankIds := .ok ["1", "2", "3"]
  reservedLookup := .error "unused"
  accountDetails := fun _ => .ok ⟨"acc", "cust", "br", "ty"⟩
  submit := fun pd => if pd.bankId = "3" then .ok (.str "applied") else .error "rejected"

theorem apply_ipo_bank_fallback_witness :
    (apply_ipo envC1w "7" ⟨none, "crn", "pin"⟩ none none).result = .ok (.str "applied") ∧
    (apply_ipo envC1w "7" ⟨none, "crn", "pin"⟩ none none).attempts = ["1", "2", "3"] := by
  have h := (apply_ipo_bank_fallback envC1w "7" ⟨none, "crn", "pin"⟩ none none
    ⟨"D", "B0"⟩ ["1", "2", "3"] rfl rfl (by decide)).2.1 ["1", "2"] "3" [] (.str "applied")
    rfl (by intro b' hb'; fin_cases hb' <;> exact ⟨"rejected", rfl⟩) rfl
  exact ⟨h.1, by rw [h.2]; rfl⟩

/-! ## Claim C2 -/

/-- Every payload built by a bank attempt carries the resolved quantity and
criteria id. -/
theorem submitAttempt_payload (env : ApplyEnv) (ud : UserDetails) (row : UserRow)
    (mk stn : Option String) (cs b : String) (pd : ApplicationData) :
    (submitAttempt env ud row mk stn cs b).1 = some pd →
    pd.appliedKitta = (resolvedKitta env ud row mk stn cs).1 ∧
    pd.shareCriteriaId = (resolvedKitta env ud row mk stn cs).2 := by
  unfold submitAttempt tryBank
  cases env.accountDetails b with
  | error e => intro h; exact Option.noConfusion h
  | ok acct =>
    intro h
    have h2 : mkApplicationData ud acct row (resolvedKitta env ud row mk stn cs).1 cs b
        (resolvedKitta env ud row mk stn cs).2 = pd := by simpa using h
    rw [← h2]
    exact ⟨rfl, rfl⟩

/-- C2 counterexample: an explicit **non-None** `message_kitta` that is the
empty string does *not* win — the code's `if message_kitta:` is a Python
truthiness test, false for `""`, so the sheet value is used instead. -/
theorem message_kitta_empty_string_counterexample :
    resolveAppliedKitta (some "") (some "20") = "20" ∧ ("20" : String) ≠ "" :=
  ⟨rfl, by decide⟩

/-- C2 (amended): the submitted `appliedKitta` is resolved with precedence:
a **truthy** (non-None *and* non-empty) `message_kitta` wins over the
person's stored default quantity, which (when non-empty) wins over the
hard-coded fallback `"10"`; for RESERVED issues a successful
reserved-quantity lookup (with non-empty demat and company-share id)
overrides the resolved quantity and attaches the share-criteria id to every
built payload; a failed lookup keeps the resolved quantity, omits the
criteria id, and does not abort the application (the bank loop is still
entered). -/
theorem apply_ipo_kitta_precedence :
    (∀ (m : String) (sk : Option String), m ≠ "" → resolveAppliedKitta (some m) sk = m) ∧
    (∀ s : String, s ≠ "" → resolveAppliedKitta none (some s) = s ∧
      resolveAppliedKitta (some "") (some s) = s) ∧
    (resolveAppliedKitta none none = "10" ∧ resolveAppliedKitta none (some "") = "10" ∧
      resolveAppliedKitta (some "") none = "10" ∧
      resolveAppliedKitta (some "") (some "") = "10") ∧
    (∀ (env : ApplyEnv) ud row (mk : Option String) cs rq scid b pd,
      env.reservedLookup = .ok (rq, scid) → ud.demat ≠ "" → cs ≠ "" →
      (submitAttempt env ud row mk (some "RESERVED") cs b).1 = some pd →
      pd.appliedKitta = rq ∧ pd.shareCriteriaId = some scid) ∧
    (∀ (env : ApplyEnv) ud row (mk : Option String) cs e b pd,
      env.reservedLookup = .error e →
      (submitAttempt env ud row mk (some "RESERVED") cs b).1 = some pd →
      pd.appliedKitta = resolveAppliedKitta mk row.appliedKitta ∧
      pd.shareCriteriaId = none) ∧
    (∀ (env : ApplyEnv) ud row (mk stn : Option String) cs b pd, stn ≠ some "RESERVED" →
      (submitAttempt env ud row mk stn cs b).1 = some pd →
      pd.appliedKitta = resolveAppliedKitta mk row.appliedKitta ∧
      pd.shareCriteriaId = none) ∧
    (∀ (env : ApplyEnv) ud row (mk : Option String) cs e b bs,
      env.userDetails = .ok ud → env.bankIds = .ok (b :: bs) →
      env.reservedLookup = .error e →
      (apply_ipo env cs row mk (some "RESERVED")).attempts ≠ []) := by
  refine ⟨?_, ?_, ⟨rfl, rfl, rfl, rfl⟩, ?_, ?_, ?_, ?_⟩
  · intro m sk hm
    cases sk <;> simp [resolveAppliedKitta, hm]
  · intro s hs
    exact ⟨by simp [resolveAppliedKitta, hs], by simp [resolveAppliedKitta, hs]⟩
  · intro env ud row mk cs rq scid b pd hres hd hcs hpd
    have hrk : resolvedKitta env ud row mk (some "RESERVED") cs = (rq, some scid) := by
      unfold resolvedKitta reservedPhase
      rw [if_pos rfl, if_neg hd, if_neg hcs, hres]
    have h := submitAttempt_payload env ud row mk (some "RESERVED") cs b pd hpd
    rw [hrk] at h
    exact h
  · intro env ud row mk cs e b pd hres hpd
    have hrk : resolvedKitta env ud row mk (some "RESERVED") cs =
        (resolveAppliedKitta mk row.appliedKitta, none) := by
      unfold resolvedKitta reservedPhase
      rw [if_pos rfl]
      by_cases hd : ud.demat = ""
      · rw [if_pos hd]
      · rw [if_neg hd]
        by_cases hcs : cs = ""
        · rw [if_pos hcs]
        · rw [if_neg hcs, hres]
    have h := submitAttempt_payload env ud row mk (some "RESERVED") cs b pd hpd
    rw [hrk] at h
    exact h
  · intro env ud row mk stn cs b pd hstn hpd
    have hrk : resolvedKitta env ud row mk stn cs =
        (resolveAppliedKitta mk row.appliedKitta, none) := by
      unfold resolvedKitta reservedPhase
      rw [if_neg hstn]
    have h := submitAttempt_payload env ud row mk stn cs b pd hpd
    rw [hrk] at h
    exact h
  · intro env ud row mk cs e b bs hud hb _
    have hne : (b :: bs : List String) ≠ [] := by simp
    simp only [apply_ipo, hud, hb, if_neg hne]
    exact applyBankLoop_cons_attempts_ne_nil _ _ b bs

/-- Environment for the C2 witness: a RESERVED lookup returning quantity
`"55"` and share-criteria id `"99"`. -/
def envC2w : ApplyEnv where
  userDetails := .ok ⟨"D", "B0"⟩
  bankIds := .ok ["1"]
  reservedLookup := .ok ("55", "99")
  accountDetails := fun _ => .ok ⟨"a", "c", "b", "t"⟩
  submit := fun _ => .ok .null

theorem apply_ipo_kitta_precedence_witness :
    resolveAppliedKitta (some "5") (some "20") = "5" ∧
    resolveAppliedKitta none (some "20") = "20" ∧
    resolveAppliedKitta none none = "10" ∧
    (mkApplicationData ⟨"D", "B0"⟩ ⟨"a", "c", "b", "t"⟩ ⟨some "20", "crn", "pin"⟩
        "55" "7" "1" (some "99")).appliedKitta = "55" ∧
    (mkApplicationData ⟨"D", "B0"⟩ ⟨"a", "c", "b", "t"⟩ ⟨some "20", "crn", "pin"⟩
        "55" "7" "1" (some "99")).shareCriteriaId = some "99" := by
  have h1 := apply_ipo_kitta_precedence.1 "5" (some "20") (by decide)
  have h2 := (apply_ipo_kitta_precedence.2.1 "20" (by decide)).1
  have h3 := apply_ipo_kitta_precedence.2.2.1.1
  have h4 := apply_ipo_kitta_precedence.2.2.2.1 envC2w ⟨"D", "B0"⟩
    ⟨some "20", "crn", "pin"⟩ none "7" "55" "99" "1"
    (mkApplicationData ⟨"D", "B0"⟩ ⟨"a", "c", "b", "t"⟩ ⟨some "20", "crn", "pin"⟩
      "55" "7" "1" (some "99")) rfl (by decide) (by decide) rfl
  exact ⟨h1, h2, h3, h4.1, h4.2⟩

/-! ## `process_telegram_message` (src/main.py lines 47-151) and claim C9 -/

/-- Python `str(v)` for the scalar JSON values interpolated into the bot's
messages (`str` of a container would be its repr, which no message of the
bot needs; it is modelled as `""`). -/
def pyStr : JVal → String
  | .str s => s
  | .num n => toString n
  | .bool true => "True"
  | .bool false => "False"
  | .null => "None"
  | .arr _ => ""
  | .obj _ => ""

/-- Interpolation of a `d.get(k)` result into an f-string: a missing key is
`None`, printed `"None"`. -/
def pyStrOptD : Option JVal → String
  | some v => pyStr v
  | none => "None"

/-- A sheet row as used by `process_telegram_message`: the person's display
name plus the credential/default fields handed to `login` and `apply_ipo`. -/
structure SheetRow where
  name : String
  clientId : String
  username : String
  password : String
  crnNumber : String
  transactionPIN : String
  appliedKitta : Option String

/-- The fields of a sheet row consumed by `apply_ipo`. -/
def SheetRow.toUserRow (r : SheetRow) : UserRow :=
  ⟨r.appliedKitta, r.crnNumber, r.transactionPIN⟩

/-- Oracles for the external effects of one `process_telegram_message`
invocation: the sheet contents, the login outcome, the value returned by
`get_applicable_issues()`, and the broker oracles used by `apply_ipo`. -/
structure ProcessEnv where
  sheet : List SheetRow
  loginResult : Except String String
  applicableIssues : JVal
  applyEnv : ApplyEnv

/-- The observable outcome of `process_telegram_message`: the returned
`status` and `message`, the Telegram messages sent (in order), and whether
`apply_ipo` was invoked. -/
structure ProcessResult where
  status : String
  message : String
  sent : List String
  applyAttempted : Bool
deriving DecidableEq

/-- Python truthiness of the extractor's optional string fields
(`if not person or not company`): `None` and `""` are falsy. -/
def pyTruthyStrOpt : Option String → Bool
  | none => false
  | some s => s ≠ ""

/-- The outer exception handler's user message (src/main.py lines 132-151). -/
def outerErrorMessage (person e : String) : String :=
  let el := pyLower e
  if strIn "authentication failed" el || strIn "login failed" el then
    "❌ Authentication failed for " ++ person ++ ". Please check your CDSC credentials."
  else if strIn "password expired" el then
    "❌ Password expired for " ++ person ++ ". Please change password in CDSC MeroShare."
  else if strIn "account expired" el then
    "❌ Account expired for " ++ person ++ ". Please renew account in CDSC MeroShare."
  else if strIn "demat expired" el then
    "❌ Demat account expired for " ++ person ++ ". Please renew demat account in CDSC MeroShare."
  else if strIn "connection failed" el || strIn "timeout" el then
    "❌ Connection error for " ++ person ++ ". Please try again later."
  else
    "❌ Error processing request for " ++ person ++ ": " ++ e

/-- The inner (application) exception handler's user message (src/main.py
lines 107-130).  The first test keeps the source's literal `"all bank IDs"`,
which contains upper-case letters and is compared against the lowercased
error text, exactly as the code does. -/
def innerErrorMessage (person scrip cname e : String) : String :=
  let el := pyLower e
  if strIn "all bank IDs" el || strIn "no bank ids available" el then
    "❌ All bank accounts failed for " ++ person ++ " in " ++ scrip ++ " (" ++ cname ++
      "). Please check your bank account details."
  else if strIn "invalid crn" el then
    "❌ Invalid CRN for " ++ person ++ " in " ++ scrip ++ " (" ++ cname ++
      "). Please check your CRN number."
  else if strIn "connection failed" el || strIn "timeout" el then
    "❌ Connection error for " ++ person ++ " in " ++ scrip ++ " (" ++ cname ++
      "). Please try again later."
  else
    "❌ Error applying IPO for " ++ person ++ " in " ++ scrip ++ " (" ++ cname ++ "): " ++ e

/-- `process_telegram_message(chat_id, text, username)` (src/main.py lines
47-151): extract the intent, guard on person/company, look up the sheet
row, log in, fetch-and-match the issue, short-circuit on `action ==
"inProcess"` (warning, no submission), otherwise run `apply_ipo` and
translate its outcome. -/
def process_telegram_message (ratio : String → String → ℚ) (env : ProcessEnv)
    (text : String) : ProcessResult :=
  let known := env.sheet.map (fun r => pyLower r.name)
  let res := extract_person_company_and_kitta ratio text known
  if !(pyTruthyStrOpt res.person) || !(pyTruthyStrOpt res.company) then
    ⟨"error", "Couldn't detect person or company",
     ["❌ Couldn't detect person or company.\n\nPlease send a message in this format:\n`[person] [company] [kitta]`\n\nExample:\n`john abc 10`"],
     false⟩
  else
    let person := res.person.getD ""
    let company := res.company.getD ""
    match env.sheet.find? (fun r => pyLower r.name == person) with
    | none =>
      ⟨"error", "No info found for " ++ person,
       ["❌ No info found for " ++ person ++ "."], false⟩
    | some row =>
      match env.loginResult with
      | .error e => ⟨"error", e, [outerErrorMessage person e], false⟩
      | .ok _token =>
        match find_applicable_issue_by_company env.applicableIssues company with
        | .error e => ⟨"error", e, [outerErrorMessage person e], false⟩
        | .ok none =>
          ⟨"error", "No applicable issue found for " ++ pyUpper company,
           ["❌ No applicable issue found for " ++ pyUpper company], false⟩
        | .ok (some issue) =>
          let d := match issue with | .obj d0 => d0 | _ => []
          if jStrEq (lookupFieldD d "action" .null) "inProcess" then
            ⟨"warning", "Already filled",
             ["⚠️ Already filled IPO for " ++ pyStrOptD (lookupField d "companyName") ++
              " (" ++ pyStrOptD (lookupField d "scrip") ++ ") for " ++ person], false⟩
          else
            match lookupField d "companyShareId" with
            | none =>
              -- `selected_issue["companyShareId"]` raises KeyError inside the
              -- inner try; the inner handler reports it generically.
              ⟨"error", "'companyShareId'",
               [innerErrorMessage person (pyStrOptD (lookupField d "scrip"))
                 (pyStrOptD (lookupField d "companyName")) "'companyShareId'"], false⟩
            | some csid =>
              let stn : Option String :=
                match lookupField d "shareTypeName" with
                | some (.str s) => some s
                | _ => none
              let o := apply_ipo env.applyEnv (pyStr csid) row.toUserRow res.kitta stn
              match o.result with
              | .ok _ =>
                ⟨"success",
                 "✅ IPO applied successfully for " ++ person ++ " in " ++
                   pyStrOptD (lookupField d "scrip") ++ " (" ++
                   pyStrOptD (lookupField d "companyName") ++ ")",
                 ["✅ IPO applied successfully for " ++ person ++ " in " ++
                   pyStrOptD (lookupField d "scrip") ++ " (" ++
                   pyStrOptD (lookupField d "companyName") ++ ")"], true⟩
              | .error e =>
                ⟨"error", e,
                 [innerErrorMessage person (pyStrOptD (lookupField d "scrip"))
                   (pyStrOptD (lookupField d "companyName")) e], true⟩

/-- C9: when the matched issue has `action == "inProcess"`, the flow is a
non-error terminal state: status `"warning"`, the distinct "already filled"
message is the only message sent, and no submission is attempted
(`apply_ipo` is never invoked). -/
theorem process_already_filled (ratio : String → String → ℚ) (env : ProcessEnv)
    (text : String) (row : SheetRow) (tok : String) (d : List (String × JVal))
    (h1 : pyTruthyStrOpt (extract_person_company_and_kitta ratio text
      (env.sheet.map (fun r => pyLower r.name))).person = true)
    (h2 : pyTruthyStrOpt (extract_person_company_and_kitta ratio text
      (env.sheet.map (fun r => pyLower r.name))).company = true)
    (h3 : env.sheet.find? (fun r => pyLower r.name ==
      (extract_person_company_and_kitta ratio text
        (env.sheet.map (fun r => pyLower r.name))).person.getD "") = some row)
    (h4 : env.loginResult = .ok tok)
    (h5 : find_applicable_issue_by_company env.applicableIssues
      ((extract_person_company_and_kitta ratio text
        (env.sheet.map (fun r => pyLower r.name))).company.getD "") = .ok (some (.obj d)))
    (h6 : jStrEq (lookupFieldD d "action" .null) "inProcess" = true) :
    process_telegram_message ratio env text =
      ⟨"warning", "Already filled",
       ["⚠️ Already filled IPO for " ++ pyStrOptD (lookupField d "companyName") ++
        " (" ++ pyStrOptD (lookupField d "scrip") ++ ") for " ++
        (extract_person_company_and_kitta ratio text
          (env.sheet.map (fun r => pyLower r.name))).person.getD ""], false⟩ := by
  simp only [process_telegram_message, h1, h2, h3, h4, h5, h6, Bool.not_true,
    Bool.or_self, Bool.false_eq_true, if_false, if_true]

/-- Sheet contents for the C9 witness. -/
def sheetW : List SheetRow := [⟨"kaka", "ci", "u", "p", "crn", "pin", some "10"⟩]

/-- Matched issue for the C9 witness: already in process. -/
def issueDW : List (String × JVal) :=
  [("scrip", .str "abc1"), ("companyName", .str "ABC Ltd"),
   ("action", .str "inProcess"), ("companyShareId", .num 7),
   ("shareTypeName", .str "IPO")]

/-- Process environment for the C9 witness. -/
def envPW : ProcessEnv where
  sheet := sheetW
  loginResult := .ok "tok"
  applicableIssues := .arr [.obj issueDW]
  applyEnv := envC1w

theorem process_already_filled_witness :
    process_telegram_message zeroRatio envPW "kaka abc" =
      ⟨"warning", "Already filled",
       ["⚠️ Already filled IPO for ABC Ltd (abc1) for kaka"], false⟩ := by
  have h := process_already_filled zeroRatio envPW "kaka abc"
    ⟨"kaka", "ci", "u", "p", "crn", "pin", some "10"⟩ "tok" issueDW
    rfl rfl rfl rfl rfl rfl
  rw [h]
  rfl

/-! ## Concrete instances of the remaining universally quantified claims -/

theorem fuzzy_match_empty_query_witness :
    fuzzy_match zeroRatio "" ["kaka", "john"] 0 = some "kaka" :=
  fuzzy_match_empty_query zeroRatio "kaka" ["john"] 0

theorem extract_spec_examples_witness :
    extract_person_company_and_kitta zeroRatio "kaka abc" ["kaka"] =
      ⟨some "kaka", some "abc", none⟩ :=
  (extract_spec_examples zeroRatio).2

theorem filter_issues_idempotent_witness :
    get_applicable_issues (get_applicable_issues
      (.arr [.str "junk", .obj [("shareGroupName", .str "Ordinary Shares"),
        ("statusName", .str "CREATE_APPROVE"), ("shareTypeName", .str "FPO"),
        ("action", .str "new")]])) =
    get_applicable_issues
      (.arr [.str "junk", .obj [("shareGroupName", .str "Ordinary Shares"),
        ("statusName", .str "CREATE_APPROVE"), ("shareTypeName", .str "FPO"),
        ("action", .str "new")]]) :=
  filter_issues_idempotent
    [.str "junk", .obj [("shareGroupName", .str "Ordinary Shares"),
      ("statusName", .str "CREATE_APPROVE"), ("shareTypeName", .str "FPO"),
      ("action", .str "new")]]

end IpoBot
